import Mathlib

/-!
Shallow embedding of `src/nicegui_aggrid_enterprise_Shiftmatic3/aggrid.py`.

The Python class `AgGrid` wraps a client-rendered grid widget.  We model:

* JSON-compatible values (`Json`),
* Python dictionaries as insertion-ordered association lists (`Dict`)
  with Python's `d[k] = v` update semantics,
* Python reference semantics through a small heap (`Heap`) of dict cells
  and int-list cells addressed by natural numbers, plus the process-wide
  class attribute `AgGrid.license_key` (`World.licenseKey`),
* the messages the wrapper sends over the client link (`MethodCall`,
  `Signal`), and the sequential effect trace of the compound operation
  `load_client_data` (`Step`),
* the client-side traversal script
  `const rowData = []; getElement(id).api.<m>(node => rowData.push(node.data)); return rowData;`
  as a fold over the sequence of row nodes the chosen iteration method
  visits (`traverseRowData`).
-/

namespace AgGridSpec

/-- JSON-compatible values, the value space of grid options and of results
decoded from the client. -/
inductive Json where
  | null
  | bool (b : Bool)
  | num (n : Int)
  | str (s : String)
  | arr (elems : List Json)
  | obj (fields : List (String × Json))

instance : Inhabited Json := ⟨Json.null⟩

/-- A Python dict from string keys to JSON values, as an insertion-ordered
association list with unique keys. -/
abbrev Dict := List (String × Json)

/-- Python `d.get(key)`: the value stored at the first matching key. -/
def Dict.get? : Dict → String → Option Json
  | [], _ => none
  | kv :: rest, key => if kv.fst = key then some kv.snd else Dict.get? rest key

/-- Python `d[key] = val`: replace the value in place when the key exists,
otherwise append the new pair at the end (insertion order). -/
def Dict.set : Dict → String → Json → Dict
  | [], key, val => [(key, val)]
  | kv :: rest, key, val =>
      if kv.fst = key then (kv.fst, val) :: rest
      else kv :: Dict.set rest key val

/-- A heap of mutable Python objects: dict cells and `list[int]` cells,
addressed by naturals.  `nextListRef` is the next fresh list address;
every allocated list cell lives strictly below it. -/
structure Heap where
  dicts : Nat → Dict
  lists : Nat → List Int
  nextListRef : Nat

/-- Overwrite the dict object stored at address `r`. -/
def Heap.setDict (h : Heap) (r : Nat) (d : Dict) : Heap :=
  { h with dicts := fun x => if x = r then d else h.dicts x }

/-- Overwrite the int-list object stored at address `r` (in-place mutation
of a Python list). -/
def Heap.setList (h : Heap) (r : Nat) (xs : List Int) : Heap :=
  { h with lists := fun x => if x = r then xs else h.lists x }

/-- Allocate a fresh list cell holding `xs` (Python's `xs[:]` copy) and
return the new heap together with the fresh address. -/
def Heap.allocList (h : Heap) (xs : List Int) : Heap × Nat :=
  ({ h with
      lists := fun x => if x = h.nextListRef then xs else h.lists x,
      nextListRef := h.nextListRef + 1 },
   h.nextListRef)

/-- Process-wide state: the heap of Python objects and the current value of
the class attribute `AgGrid.license_key`. -/
structure World where
  heap : Heap
  licenseKey : Option String

/-- Line 13, `license_key: str = None`: the initial value of the class
attribute before anyone configures it.  The annotation says `str` but the
value is `None`, hence `Option String` with default `none`. -/
def licenseKeyClassInitial : Option String := none

/-- Reassigning the process-wide class attribute `AgGrid.license_key`. -/
def setLicenseKey (w : World) (k : Option String) : World :=
  { w with licenseKey := k }

/-- Per-instance state of an `AgGrid` element: the `_props` entries written
by `__init__` (the options dict is held by reference, the html-columns list
by the address of the freshly allocated copy) and the CSS class list. -/
structure AgGrid where
  props_options : Nat
  props_html_columns : Nat
  props_auto_size_columns : Bool
  props_license_key : Option String
  classList : List String

/-- `AgGrid.__init__(options, *, html_columns, theme, auto_size_columns)`:
stores the options dict by reference, a copy (`html_columns[:]`) of the
caller's list, the flag, and the current class-level license key; the class
list is `default_classes="nicegui-aggrid"` plus `f"ag-theme-{theme}"`. -/
def AgGrid.init (w : World) (options : Nat) (html_columns : Nat)
    (theme : String) (auto_size_columns : Bool) : World × AgGrid :=
  let alloc := Heap.allocList w.heap (w.heap.lists html_columns)
  ({ w with heap := alloc.fst },
   { props_options := options,
     props_html_columns := alloc.snd,
     props_auto_size_columns := auto_size_columns,
     props_license_key := w.licenseKey,
     classList := ["nicegui-aggrid", "ag-theme-" ++ theme] })

/-- The `options` property: returns `self._props["options"]`, i.e. the very
reference stored at construction. -/
def AgGrid.options (g : AgGrid) : Nat :=
  g.props_options

/-- A message sent over the client link by `Element.run_method`: the
client-side method name, the positional arguments in order, and the timeout
(`none` when the caller did not supply one). -/
structure MethodCall where
  method : String
  args : List Json
  timeout : Option Rat

/-- `Element.run_method(name, *args, timeout=...)`: packages the call for
the client link. -/
def AgGrid.run_method (_g : AgGrid) (name : String) (args : List Json)
    (timeout : Option Rat) : MethodCall :=
  { method := name, args := args, timeout := timeout }

/-- A JSON encoding of the per-instance props, as serialized to the client
(`None` becomes JSON `null`). -/
def optStrToJson : Option String → Json
  | none => Json.null
  | some s => Json.str s

/-- The `_props` mapping of the element as transmitted to the client: the
four keys written by `__init__`, in insertion order, with current heap
contents. -/
def AgGrid.propsSnapshot (g : AgGrid) (w : World) : Dict :=
  [("options", Json.obj (w.heap.dicts g.props_options)),
   ("html_columns", Json.arr ((w.heap.lists g.props_html_columns).map Json.num)),
   ("auto_size_columns", Json.bool g.props_auto_size_columns),
   ("license_key", optStrToJson g.props_license_key)]

/-- A signal pushed to the client: the element-update push of
`super().update()` (carrying the current props and classes) or a
`run_method` message. -/
inductive Signal where
  | elementUpdate (props : Dict) (classList : List String)
  | methodCall (c : MethodCall)

/-- `AgGrid.update()`: `super().update()` pushes the element's current
state, then `self.run_method("update_grid")` is sent; no instance or heap
state changes. -/
def AgGrid.update (g : AgGrid) (w : World) : World × List Signal :=
  (w, [Signal.elementUpdate (g.propsSnapshot w) g.classList,
       Signal.methodCall (g.run_method "update_grid" [] none)])

/-- `run_grid_method(name, *args, timeout)`: forwards
`run_method("run_grid_method", name, *args, timeout=timeout)`. -/
def AgGrid.run_grid_method (g : AgGrid) (name : String) (args : List Json)
    (timeout : Rat) : MethodCall :=
  g.run_method "run_grid_method" (Json.str name :: args) (some timeout)

/-- `run_grid_method` with the `timeout: float = 1` keyword default. -/
def AgGrid.run_grid_method_dft (g : AgGrid) (name : String)
    (args : List Json) : MethodCall :=
  g.run_grid_method name args 1

/-- `run_row_method(row_id, name, *args, timeout)`: forwards
`run_method("run_row_method", row_id, name, *args, timeout=timeout)`. -/
def AgGrid.run_row_method (g : AgGrid) (row_id : String) (name : String)
    (args : List Json) (timeout : Rat) : MethodCall :=
  g.run_method "run_row_method" (Json.str row_id :: Json.str name :: args)
    (some timeout)

/-- `run_row_method` with the `timeout: float = 1` keyword default. -/
def AgGrid.run_row_method_dft (g : AgGrid) (row_id : String) (name : String)
    (args : List Json) : MethodCall :=
  g.run_row_method row_id name args 1

/-- Python truthiness-based decoding of an awaited result used as a list
(`cast(list[dict], result)` is a no-op at runtime; the result of the grid
calls modelled here is always a JSON array). -/
def jsonToList : Json → List Json
  | Json.arr elems => elems
  | _ => []

/-- `get_selected_rows()`: awaits `run_grid_method("getSelectedRows")`
(with the default timeout) and treats the decoded reply as a list of row
records.  `respond` is the client link's reply function. -/
def AgGrid.get_selected_rows (g : AgGrid) (respond : MethodCall → Json) :
    List Json :=
  jsonToList (respond (g.run_grid_method_dft "getSelectedRows" []))

/-- `get_selected_row()`: `rows[0] if rows else None` — Python truthiness
on a list is non-emptiness, and indexing happens only in the truthy
branch. -/
def AgGrid.get_selected_row (g : AgGrid) (respond : MethodCall → Json) :
    Option Json :=
  match g.get_selected_rows respond with
  | [] => none
  | x :: _ => some x

/-- The closed `Literal["all_unsorted", "filtered_unsorted",
"filtered_sorted", "leaf"]` vocabulary of `get_client_data`'s `method`
keyword. -/
inductive ClientDataMethod where
  | all_unsorted
  | filtered_unsorted
  | filtered_sorted
  | leaf
  deriving DecidableEq

/-- The `API_METHODS` dispatch table inside `get_client_data`. -/
def API_METHODS : ClientDataMethod → String
  | ClientDataMethod.all_unsorted => "forEachNode"
  | ClientDataMethod.filtered_unsorted => "forEachNodeAfterFilter"
  | ClientDataMethod.filtered_sorted => "forEachNodeAfterFilterAndSort"
  | ClientDataMethod.leaf => "forEachLeafNode"

/-- A client-side row node: the in-memory row object, of which the script
reads the `data` field. -/
structure RowNode where
  data : Json

/-- The client-side grid: for each iteration-method name, the ordered
sequence of row nodes that method visits.  A grid with no rows visits no
nodes under any method. -/
structure ClientGrid where
  nodesFor : String → List RowNode

/-- Semantics of the traversal script sent by `get_client_data`:
`const rowData = [];` then `api.<m>(node => rowData.push(node.data));`
— a left fold pushing each visited node's data onto an initially empty
array. -/
def traverseRowData (grid : ClientGrid) (apiName : String) : List Json :=
  (grid.nodesFor apiName).foldl (fun acc node => acc ++ [node.data]) []

/-- The JSON value the script returns to `run_javascript`
(`return rowData;`): always an array, never `null`. -/
def runTraversalScript (grid : ClientGrid) (apiName : String) : Json :=
  Json.arr (traverseRowData grid apiName)

/-- `get_client_data(*, timeout, method)`: runs the traversal script with
the iteration method `API_METHODS[method]` on the client and decodes the
reply as a list of row records.  (`timeout` bounds the wait; it does not
affect the decoded value on success.) -/
def AgGrid.get_client_data (_g : AgGrid) (grid : ClientGrid) (_timeout : Rat)
    (method : ClientDataMethod) : List Json :=
  jsonToList (runTraversalScript grid (API_METHODS method))

/-- `get_client_data` with its keyword defaults `timeout=1`,
`method="all_unsorted"`. -/
def AgGrid.get_client_data_dft (g : AgGrid) (grid : ClientGrid) : List Json :=
  g.get_client_data grid 1 ClientDataMethod.all_unsorted

/-- `self.options[k] = v`: writes through the `options` property into the
dict object the instance references. -/
def AgGrid.setOptionsKey (g : AgGrid) (w : World) (k : String) (v : Json) :
    World :=
  { w with
      heap := w.heap.setDict g.options
        (Dict.set (w.heap.dicts g.options) k v) }

/-- One step of the sequential execution of `load_client_data`: the awaited
script read, the write through the options property, or a signal emitted to
the client. -/
inductive Step where
  | jsRead (apiName : String) (timeout : Rat) (result : List Json)
  | writeOptionsKey (k : String) (v : Json)
  | emit (s : Signal)

/-- Effect of one step on the world: only the options write mutates
anything server-side; reads and emitted signals leave the world as is. -/
def applyStep (g : AgGrid) (w : World) : Step → World
  | Step.writeOptionsKey k v => g.setOptionsKey w k v
  | _ => w

/-- Replay a prefix of the sequential trace on the world. -/
def applyTrace (g : AgGrid) (w : World) (ts : List Step) : World :=
  ts.foldl (applyStep g) w

/-- `load_client_data()`: `client_row_data = await self.get_client_data()`
(all defaults), then `self.options["rowData"] = client_row_data`, then
`self.update()`.  Returns the final world and the ordered effect trace. -/
def AgGrid.load_client_data (g : AgGrid) (w : World) (grid : ClientGrid) :
    World × List Step :=
  let client_row_data := g.get_client_data_dft grid
  let w1 := g.setOptionsKey w "rowData" (Json.arr client_row_data)
  let upd := g.update w1
  (upd.fst,
   Step.jsRead (API_METHODS ClientDataMethod.all_unsorted) 1 client_row_data
     :: Step.writeOptionsKey "rowData" (Json.arr client_row_data)
     :: upd.snd.map Step.emit)

/-- A concrete world used to instantiate hypotheses at concrete inputs:
one allocated dict cell at address 0 and one allocated list cell at
address 0; the license key is still unconfigured. -/
def exampleWorld : World :=
  { heap :=
      { dicts := fun x => if x = 0 then [("rowData", Json.arr [])] else [],
        lists := fun x => if x = 0 then [2, 5] else [],
        nextListRef := 1 },
    licenseKey := licenseKeyClassInitial }

/-- A concrete constructed instance over `exampleWorld`. -/
def exampleInit : World × AgGrid :=
  AgGrid.init exampleWorld 0 0 "balham" true

/-- Looking up a key right after `d[key] = val` yields `val`, whether the
key was present before or not. -/
theorem Dict.get_set_self (d : Dict) (k : String) (v : Json) :
    Dict.get? (Dict.set d k v) k = some v := by
  induction d with
  | nil => simp [Dict.set, Dict.get?]
  | cons kv rest ih =>
    by_cases h : kv.fst = k
    · simp [Dict.set, Dict.get?, h]
    · simp [Dict.set, Dict.get?, h, ih]

/-- C1: `load_client_data` is exactly the sequential composition of the
client-data read with the `all_unsorted` policy and the default timeout 1,
the overwrite of the options dict's `"rowData"` key with the returned
sequence, and `update()`; consequently, on success the options mapping's
`"rowData"` key equals the sequence the read returned, for any grid state
(including an empty result). -/
theorem load_client_data_spec (w : World) (g : AgGrid) (grid : ClientGrid) :
    g.load_client_data w grid =
      ((g.update (g.setOptionsKey w "rowData"
          (Json.arr (g.get_client_data_dft grid)))).fst,
       Step.jsRead "forEachNode" 1 (g.get_client_data_dft grid)
         :: Step.writeOptionsKey "rowData" (Json.arr (g.get_client_data_dft grid))
         :: (g.update (g.setOptionsKey w "rowData"
              (Json.arr (g.get_client_data_dft grid)))).snd.map Step.emit) ∧
    Dict.get? ((g.load_client_data w grid).fst.heap.dicts g.options) "rowData"
      = some (Json.arr (g.get_client_data_dft grid)) := by
  constructor
  · rfl
  · simp [AgGrid.load_client_data, AgGrid.update, AgGrid.setOptionsKey,
      Heap.setDict, Dict.get_set_self]

/-- C2: whenever `get_selected_rows` returns the sequence `rows`,
`get_selected_row` returns `none` exactly when `rows` is empty and
otherwise returns the first element of `rows`; the empty case yields a
value, not an error. -/
theorem get_selected_row_spec (g : AgGrid) (respond : MethodCall → Json)
    (rows : List Json) (h : g.get_selected_rows respond = rows) :
    (g.get_selected_row respond = none ↔ rows = []) ∧
    (∀ x xs, rows = x :: xs → g.get_selected_row respond = some x) := by
  unfold AgGrid.get_selected_row
  rw [h]
  cases rows with
  | nil => simp
  | cons x xs => simp

/-- C2 witness: a client reply of one selected record. -/
theorem get_selected_row_spec_witness :
    AgGrid.get_selected_rows exampleInit.snd (fun _ => Json.arr [Json.num 7])
      = [Json.num 7] ∧
    ((AgGrid.get_selected_row exampleInit.snd (fun _ => Json.arr [Json.num 7])
        = none ↔ ([Json.num 7] : List Json) = []) ∧
     (∀ x xs, ([Json.num 7] : List Json) = x :: xs →
        AgGrid.get_selected_row exampleInit.snd (fun _ => Json.arr [Json.num 7])
          = some x)) :=
  ⟨rfl, get_selected_row_spec exampleInit.snd (fun _ => Json.arr [Json.num 7])
    [Json.num 7] rfl⟩

/-- C3: the traversal vocabulary is the closed four-policy enumeration,
each policy dispatches to its corresponding client iteration method, and
the `method` keyword defaults to `all_unsorted`. -/
theorem traversal_policy_spec :
    (∀ m : ClientDataMethod,
      m = ClientDataMethod.all_unsorted ∨ m = ClientDataMethod.filtered_unsorted ∨
      m = ClientDataMethod.filtered_sorted ∨ m = ClientDataMethod.leaf) ∧
    API_METHODS ClientDataMethod.all_unsorted = "forEachNode" ∧
    API_METHODS ClientDataMethod.filtered_unsorted = "forEachNodeAfterFilter" ∧
    API_METHODS ClientDataMethod.filtered_sorted = "forEachNodeAfterFilterAndSort" ∧
    API_METHODS ClientDataMethod.leaf = "forEachLeafNode" ∧
    (∀ (g : AgGrid) (grid : ClientGrid) (t : Rat) (m : ClientDataMethod),
      g.get_client_data grid t m
        = jsonToList (runTraversalScript grid (API_METHODS m))) ∧
    (∀ (g : AgGrid) (grid : ClientGrid),
      g.get_client_data_dft grid
        = g.get_client_data grid 1 ClientDataMethod.all_unsorted) := by
  refine ⟨fun m => ?_, rfl, rfl, rfl, rfl, fun _ _ _ _ => rfl, fun _ _ => rfl⟩
  cases m <;> simp

/-- C4: constructing a widget over the options dict at address `optref`
and reading the `options` property yields the same mapping; moreover the
property exposes the very address stored at construction, so a write
through the caller's reference is visible through the property. -/
theorem options_round_trip_spec (w : World) (optref lref : Nat)
    (theme : String) (asz : Bool) :
    AgGrid.options (AgGrid.init w optref lref theme asz).snd = optref ∧
    (AgGrid.init w optref lref theme asz).fst.heap.dicts
        (AgGrid.options (AgGrid.init w optref lref theme asz).snd)
      = w.heap.dicts optref ∧
    (∀ (k : String) (v : Json),
      (Heap.setDict (AgGrid.init w optref lref theme asz).fst.heap optref
          (Dict.set ((AgGrid.init w optref lref theme asz).fst.heap.dicts optref)
            k v)).dicts
        (AgGrid.options (AgGrid.init w optref lref theme asz).snd)
      = Dict.set (w.heap.dicts optref) k v) := by
  refine ⟨rfl, rfl, fun k v => ?_⟩
  simp [AgGrid.init, AgGrid.options, Heap.setDict, Heap.allocList]

/-- C5: `update()` leaves the world — in particular the options mapping —
unchanged, and a second consecutive call with unchanged options emits a
structurally identical signal list. -/
theorem update_frame_spec (w : World) (g : AgGrid) :
    (g.update w).fst = w ∧
    (g.update w).fst.heap.dicts g.options = w.heap.dicts g.options ∧
    (g.update (g.update w).fst).snd = (g.update w).snd :=
  ⟨rfl, rfl, rfl⟩

/-- C6: in `load_client_data`'s sequential trace the options write comes
right after the read and before every emitted push, and replaying just the
read and the write already leaves the options mapping's `"rowData"` key
equal to the read result — the partial-failure state if the push never
happens; the emitted pushes add no further server-side change. -/
theorem load_write_before_push_spec (w : World) (g : AgGrid)
    (grid : ClientGrid) :
    (g.load_client_data w grid).snd.take 2 =
      [Step.jsRead "forEachNode" 1 (g.get_client_data_dft grid),
       Step.writeOptionsKey "rowData" (Json.arr (g.get_client_data_dft grid))] ∧
    (∀ s ∈ (g.load_client_data w grid).snd.drop 2, ∃ sig, s = Step.emit sig) ∧
    Dict.get?
        ((applyTrace g w ((g.load_client_data w grid).snd.take 2)).heap.dicts
          g.options) "rowData"
      = some (Json.arr (g.get_client_data_dft grid)) ∧
    applyTrace g w (g.load_client_data w grid).snd
      = (g.load_client_data w grid).fst := by
  refine ⟨rfl, ?_, ?_, ?_⟩
  · intro s hs
    simp [AgGrid.load_client_data, AgGrid.update] at hs
    rcases hs with h1 | h2
    · exact ⟨_, h1⟩
    · exact ⟨_, h2⟩
  · simp [applyTrace, applyStep, AgGrid.load_client_data, AgGrid.update,
      AgGrid.setOptionsKey, Heap.setDict, Dict.get_set_self]
  · rfl

/-- C7: the generic invoker forwards the method name followed by the
arguments in order (the row-scoped invoker additionally puts the row
identifier before the method name), and in both the timeout defaults to 1
second and is overridable per call. -/
theorem invoker_forwarding_spec (g : AgGrid) (row_id name : String)
    (args : List Json) (t : Rat) :
    g.run_grid_method name args t
      = { method := "run_grid_method", args := Json.str name :: args,
          timeout := some t } ∧
    g.run_row_method row_id name args t
      = { method := "run_row_method",
          args := Json.str row_id :: Json.str name :: args,
          timeout := some t } ∧
    g.run_grid_method_dft name args = g.run_grid_method name args 1 ∧
    g.run_row_method_dft row_id name args = g.run_row_method row_id name args 1 :=
  ⟨rfl, rfl, rfl, rfl⟩

/-- C8: on a grid whose iteration methods visit no nodes, every one of the
four traversal policies makes the script return the empty JSON array
(never `null`), and `get_client_data` returns the empty sequence. -/
theorem empty_grid_read_spec (g : AgGrid) (grid : ClientGrid) (t : Rat)
    (h : ∀ apiName, grid.nodesFor apiName = []) :
    ∀ m : ClientDataMethod,
      runTraversalScript grid (API_METHODS m) = Json.arr [] ∧
      g.get_client_data grid t m = [] := by
  intro m
  constructor
  · simp [runTraversalScript, traverseRowData, h]
  · simp [AgGrid.get_client_data, runTraversalScript, traverseRowData, h,
      jsonToList]

/-- C8 witness: the grid that visits no nodes under any method. -/
theorem empty_grid_read_spec_witness :
    (∀ apiName, (ClientGrid.mk (fun _ => [])).nodesFor apiName = []) ∧
    (∀ m : ClientDataMethod,
      runTraversalScript (ClientGrid.mk (fun _ => [])) (API_METHODS m)
        = Json.arr [] ∧
      AgGrid.get_client_data exampleInit.snd (ClientGrid.mk (fun _ => [])) 1 m
        = []) :=
  ⟨fun _ => rfl,
   empty_grid_read_spec exampleInit.snd (ClientGrid.mk (fun _ => [])) 1
     (fun _ => rfl)⟩

/-- C9: with the caller's list living at an already-allocated address,
mutating that list after construction leaves the instance's stored copy
unchanged, and reassigning the process-wide license key afterwards leaves
the instance's stored key equal to the key at construction time. -/
theorem instance_flags_spec (w : World) (optref lref : Nat) (theme : String)
    (asz : Bool) (hl : lref < w.heap.nextListRef) (xs' : List Int)
    (k' : Option String) :
    (setLicenseKey
        { (AgGrid.init w optref lref theme asz).fst with
            heap := Heap.setList (AgGrid.init w optref lref theme asz).fst.heap
              lref xs' } k').heap.lists
        (AgGrid.init w optref lref theme asz).snd.props_html_columns
      = w.heap.lists lref ∧
    (AgGrid.init w optref lref theme asz).snd.props_license_key
      = w.licenseKey := by
  constructor
  · have hne : w.heap.nextListRef ≠ lref := Nat.ne_of_gt hl
    simp [AgGrid.init, Heap.allocList, Heap.setList, setLicenseKey, hne]
  · rfl

/-- C9 witness: caller's list at address 0 of `exampleWorld`, mutated to
`[9]`, license key reassigned to `"KEY"` after construction. -/
theorem instance_flags_spec_witness :
    (0 < exampleWorld.heap.nextListRef) ∧
    ((setLicenseKey
        { (AgGrid.init exampleWorld 0 0 "balham" true).fst with
            heap := Heap.setList
              (AgGrid.init exampleWorld 0 0 "balham" true).fst.heap 0 [9] }
        (some "KEY")).heap.lists
        (AgGrid.init exampleWorld 0 0 "balham" true).snd.props_html_columns
      = exampleWorld.heap.lists 0 ∧
     (AgGrid.init exampleWorld 0 0 "balham" true).snd.props_license_key
      = exampleWorld.licenseKey) :=
  ⟨by decide,
   instance_flags_spec exampleWorld 0 0 "balham" true (by decide) [9]
     (some "KEY")⟩

/-- C10: when the process-wide license key still has its initial value
(`license_key: str = None`, never configured), a constructed instance
stores `none`, and the props transmitted to the client carry JSON `null`
under `"license_key"`. -/
theorem license_key_default_spec (w : World) (optref lref : Nat)
    (theme : String) (asz : Bool) (h : w.licenseKey = licenseKeyClassInitial) :
    (AgGrid.init w optref lref theme asz).snd.props_license_key = none ∧
    Dict.get?
        (AgGrid.propsSnapshot (AgGrid.init w optref lref theme asz).snd
          (AgGrid.init w optref lref theme asz).fst) "license_key"
      = some Json.null := by
  constructor
  · simp [AgGrid.init, h, licenseKeyClassInitial]
  · simp [AgGrid.propsSnapshot, Dict.get?, AgGrid.init, h,
      licenseKeyClassInitial, optStrToJson]

/-- C10 witness: `exampleWorld`, whose license key was never configured. -/
theorem license_key_default_spec_witness :
    exampleWorld.licenseKey = licenseKeyClassInitial ∧
    ((AgGrid.init exampleWorld 0 0 "balham" true).snd.props_license_key = none ∧
     Dict.get?
        (AgGrid.propsSnapshot (AgGrid.init exampleWorld 0 0 "balham" true).snd
          (AgGrid.init exampleWorld 0 0 "balham" true).fst) "license_key"
      = some Json.null) :=
  ⟨rfl, license_key_default_spec exampleWorld 0 0 "balham" true rfl⟩

end AgGridSpec
